import Mathlib

/-!
Verification development for the concrete CDP (compression) parameter pipeline
of cdp_comp.py.  The script is a single deterministic pass: scalar derivations
from the input characteristic strength, generation of a fixed-step strain
vector, vectorized stress and strain-component formulas, a
non-negativity/monotonicity normalization, and export slicing.

Modelling conventions (shallow embedding):
  Python floats are modelled as exact real numbers, numpy arrays as lists of
  reals.  Vectorized numpy expressions are elementwise maps over the strain
  list, and the zeros-plus-boolean-mask assignments of Steps 11-13 are
  pointwise conditionals (an entry is the masked formula where the mask holds
  and 0 elsewhere, exactly as the numpy code produces).  Python round(x, 4)
  is modelled as round-half-to-even of x*10^4 divided by 10^4.
-/

namespace CDP

open scoped Classical

/-- roundHalfEven models Python round-half-to-even of a real to an integer. -/
noncomputable def roundHalfEven (x : ℝ) : ℤ :=
  if Int.fract x < 1 / 2 then ⌊x⌋
  else if 1 / 2 < Int.fract x then ⌈x⌉
  else if Even ⌊x⌋ then ⌊x⌋ else ⌊x⌋ + 1

/-- pyRound4 models Python round(x, 4): round half to even at the fourth
decimal place. -/
noncomputable def pyRound4 (x : ℝ) : ℝ := (roundHalfEven (x * 10 ^ 4) : ℝ) / 10 ^ 4

/-- arange models numpy.arange(start, stop, step) for a positive step:
ceil((stop - start)/step) elements, the i-th being start + i*step. -/
noncomputable def arange (start stop step : ℝ) : List ℝ :=
  (List.range (⌈(stop - start) / step⌉).toNat).map (fun (i : ℕ) => start + (i : ℝ) * step)

/-- Step 2: mean compressive strength f_cm = fck + 8. -/
def f_cm (fck : ℝ) : ℝ := fck + 8

/-- Step 3: modulus of elasticity in GPa, 22 * (f_cm / 10) ** 0.3. -/
noncomputable def E_cm_GPa (fck : ℝ) : ℝ := 22 * (f_cm fck / 10) ^ (0.3 : ℝ)

/-- Step 3: modulus of elasticity in MPa. -/
noncomputable def E_cm_MPa (fck : ℝ) : ℝ := E_cm_GPa fck * 1000

/-- Step 4, first assignment: eps_c1 = 0.7 * f_cm ** 0.31 * 0.001. -/
noncomputable def eps_c1_uncapped (fck : ℝ) : ℝ := 0.7 * f_cm fck ^ (0.31 : ℝ) * 0.001

/-- Step 4, after the conditional: if eps_c1 > 0.0028 then eps_c1 = 0.0028. -/
noncomputable def eps_c1_capped (fck : ℝ) : ℝ :=
  if eps_c1_uncapped fck > 0.0028 then 0.0028 else eps_c1_uncapped fck

/-- Step 4, final value of the variable: eps_c1 = round(eps_c1, 4). -/
noncomputable def eps_c1 (fck : ℝ) : ℝ := pyRound4 (eps_c1_capped fck)

/-- Step 5: ultimate compressive strain eps_cu1, with the fck < 50 branch. -/
noncomputable def eps_cu1 (fck : ℝ) : ℝ :=
  if fck < 50 then 0.0035 else (2.8 + 27 * ((98 - f_cm fck) / 100) ^ 4) * 0.001

/-- Step 6: strain_values = np.arange(0, eps_cu1 + 0.0001, 0.0001). -/
noncomputable def strain_values (fck : ℝ) : List ℝ := arange 0 (eps_cu1 fck + 0.0001) 0.0001

/-- Step 7: eta = strain / eps_c1, per element. -/
noncomputable def eta_at (fck s : ℝ) : ℝ := s / eps_c1 fck

/-- Step 8: curve shape parameter k = 1.05 * E_cm_MPa * abs(eps_c1) / f_cm. -/
noncomputable def k (fck : ℝ) : ℝ := 1.05 * E_cm_MPa fck * |eps_c1 fck| / f_cm fck

/-- Step 9, per element: stress = f_cm * ((k*eta - eta**2) / (1 + (k-2)*eta)). -/
noncomputable def stress_at (fck s : ℝ) : ℝ :=
  f_cm fck * ((k fck * eta_at fck s - eta_at fck s ^ 2) / (1 + (k fck - 2) * eta_at fck s))

/-- Step 9: the stress array. -/
noncomputable def stress_values (fck : ℝ) : List ℝ := (strain_values fck).map (stress_at fck)

/-- Step 10, per element: elastic strain = stress / E_cm_MPa. -/
noncomputable def elastic_strain_at (fck s : ℝ) : ℝ := stress_at fck s / E_cm_MPa fck

/-- Step 10: the elastic strain array. -/
noncomputable def elastic_strain_values (fck : ℝ) : List ℝ :=
  (strain_values fck).map (elastic_strain_at fck)

/-- Step 11, per element: zeros with strain - elastic strain where
strain > eps_c1 (the mask). -/
noncomputable def inelastic_strain_raw_at (fck s : ℝ) : ℝ :=
  if s > eps_c1 fck then s - elastic_strain_at fck s else 0

/-- Step 11: the inelastic strain array before Step 14 normalization. -/
noncomputable def inelastic_strain_values_raw (fck : ℝ) : List ℝ :=
  (strain_values fck).map (inelastic_strain_raw_at fck)

/-- Step 12, per element: zeros with 1 - stress/f_cm where strain > eps_c1. -/
noncomputable def damage_raw_at (fck s : ℝ) : ℝ :=
  if s > eps_c1 fck then 1 - stress_at fck s / f_cm fck else 0

/-- Step 12: the damage array before Step 14 normalization. -/
noncomputable def damage_values_raw (fck : ℝ) : List ℝ :=
  (strain_values fck).map (damage_raw_at fck)

/-- Step 13, per element: zeros with
inelastic - (damage/(1-damage)) * (stress/E_cm_MPa) where strain > eps_c1. -/
noncomputable def plastic_strain_raw_at (fck s : ℝ) : ℝ :=
  if s > eps_c1 fck then
    inelastic_strain_raw_at fck s -
      damage_raw_at fck s / (1 - damage_raw_at fck s) * (stress_at fck s / E_cm_MPa fck)
  else 0

/-- Step 13: the plastic strain array before Step 14 normalization. -/
noncomputable def plastic_strain_values_raw (fck : ℝ) : List ℝ :=
  (strain_values fck).map (plastic_strain_raw_at fck)

/-- cummaxAux acc l is the running maximum of l seeded with accumulator acc. -/
noncomputable def cummaxAux (acc : ℝ) : List ℝ → List ℝ
  | [] => []
  | x :: xs => max acc x :: cummaxAux (max acc x) xs

/-- maximum_accumulate models np.maximum.accumulate: out[0] = a[0] and
out[i] = max(out[i-1], a[i]). -/
noncomputable def maximum_accumulate : List ℝ → List ℝ
  | [] => []
  | x :: xs => x :: cummaxAux x xs

/-- Step 14: arr = np.maximum(arr, 0) followed by np.maximum.accumulate(arr). -/
noncomputable def ensure_non_negative_and_monotonic (arr : List ℝ) : List ℝ :=
  maximum_accumulate (arr.map (fun x => max x 0))

/-- Step 14: normalized inelastic strain array (the final value of the
variable inelastic_strain_values in the script). -/
noncomputable def inelastic_strain_values (fck : ℝ) : List ℝ :=
  ensure_non_negative_and_monotonic (inelastic_strain_values_raw fck)

/-- Step 14: normalized plastic strain array. -/
noncomputable def plastic_strain_values (fck : ℝ) : List ℝ :=
  ensure_non_negative_and_monotonic (plastic_strain_values_raw fck)

/-- Step 14: normalized damage array. -/
noncomputable def damage_values (fck : ℝ) : List ℝ :=
  ensure_non_negative_and_monotonic (damage_values_raw fck)

/-- findFirstGe c l models np.argmax(l >= c) up to the all-False case: the
index of the first element that is >= c, or none. -/
noncomputable def findFirstGe (c : ℝ) : List ℝ → Option ℕ
  | [] => none
  | x :: xs => if x ≥ c then some 0 else (findFirstGe c xs).map (fun j => j + 1)

/-- Step 15: start_index = np.argmax(strain_values >= eps_c1); np.argmax of an
all-False boolean array is 0, hence the getD 0. -/
noncomputable def start_index (fck : ℝ) : ℕ :=
  (findFirstGe (eps_c1 fck) (strain_values fck)).getD 0

/-- Step 15: rows of the exported stress/inelastic-strain table: per-index
pairs of the raw stress and the normalized inelastic strain, from start_index
on. -/
noncomputable def export_data (fck : ℝ) : List (ℝ × ℝ) :=
  ((stress_values fck).drop (start_index fck)).zip
    ((inelastic_strain_values fck).drop (start_index fck))

/-- Step 16: rows of the exported damage/inelastic-strain table. -/
noncomputable def export_damage_data (fck : ℝ) : List (ℝ × ℝ) :=
  ((damage_values fck).drop (start_index fck)).zip
    ((inelastic_strain_values fck).drop (start_index fck))

/-- Content of plastic_compression_behaviour.csv: the column headers in order
and the data rows.  The pandas to_csv rendering is a pure function of this
data, so byte-level file equality follows from equality of this value. -/
noncomputable def plastic_compression_behaviour_csv (fck : ℝ) : List String × List (ℝ × ℝ) :=
  (["Stress [MPa]", "Inelastic Strain [-]"], export_data fck)

/-- Content of damage_inelastic_compression.csv. -/
noncomputable def damage_inelastic_compression_csv (fck : ℝ) : List String × List (ℝ × ℝ) :=
  (["Damage Parameter [-]", "Inelastic Strain [-]"], export_damage_data fck)

/-- Everything the run derives from fck: scalars and the six sequences. -/
noncomputable def pipeline_output (fck : ℝ) :
    ℝ × ℝ × ℝ × ℝ × ℝ × ℝ × List ℝ × List ℝ × List ℝ × List ℝ × List ℝ × List ℝ :=
  (f_cm fck, E_cm_GPa fck, E_cm_MPa fck, eps_c1 fck, eps_cu1 fck, k fck,
   strain_values fck, stress_values fck, elastic_strain_values fck,
   inelastic_strain_values fck, plastic_strain_values fck, damage_values fck)

/-! Helper lemmas about the round-half-to-even model. -/

lemma fract_eq_sub_floor (x : ℝ) : Int.fract x = x - ⌊x⌋ := rfl

lemma roundHalfEven_le_ceil (x : ℝ) : roundHalfEven x ≤ ⌈x⌉ := by
  unfold roundHalfEven
  split_ifs with h1 h2 h3
  · exact Int.floor_le_ceil x
  · exact le_refl _
  · exact Int.floor_le_ceil x
  · have hf : Int.fract x = 1 / 2 := le_antisymm (not_lt.mp h2) (not_lt.mp h1)
    have hx : x = (⌊x⌋ : ℝ) + 1 / 2 := by
      have := fract_eq_sub_floor x
      rw [hf] at this; linarith
    have hhalf : ⌈(1 / 2 : ℝ)⌉ = 1 := by
      rw [Int.ceil_eq_iff]; norm_num
    have hceil : ⌈x⌉ = ⌊x⌋ + 1 := by
      conv_lhs => rw [hx]
      rw [add_comm ((⌊x⌋ : ℝ)) (1 / 2 : ℝ), Int.ceil_add_int, hhalf]
      omega
    omega

lemma roundHalfEven_intCast (n : ℤ) : roundHalfEven ((n : ℝ)) = n := by
  unfold roundHalfEven
  rw [Int.fract_intCast]
  norm_num

lemma roundHalfEven_of_upper_half (x : ℝ) (n : ℤ) (h1 : (n : ℝ) + 1 / 2 < x)
    (h2 : x < (n : ℝ) + 1) : roundHalfEven x = n + 1 := by
  have hfl : ⌊x⌋ = n := by
    rw [Int.floor_eq_iff]
    constructor <;> [linarith; exact_mod_cast h2]
  have hfr : 1 / 2 < Int.fract x := by
    rw [fract_eq_sub_floor, hfl]; linarith
  have hcl : ⌈x⌉ = n + 1 := by
    rw [Int.ceil_eq_iff]
    push_cast
    constructor <;> linarith
  unfold roundHalfEven
  rw [if_neg (by linarith), if_pos hfr, hcl]

lemma pyRound4_le (x : ℝ) (n : ℤ) (h : x * 10 ^ 4 ≤ (n : ℝ)) :
    pyRound4 x ≤ (n : ℝ) / 10 ^ 4 := by
  unfold pyRound4
  have h1 : roundHalfEven (x * 10 ^ 4) ≤ n :=
    le_trans (roundHalfEven_le_ceil _) (Int.ceil_le.mpr h)
  have h2 : ((roundHalfEven (x * 10 ^ 4) : ℝ)) ≤ (n : ℝ) := by exact_mod_cast h1
  exact (div_le_div_right (by norm_num : (0 : ℝ) < 10 ^ 4)).mpr h2

lemma pyRound4_eq_upper (x : ℝ) (n : ℤ) (h1 : (n : ℝ) + 1 / 2 < x * 10 ^ 4)
    (h2 : x * 10 ^ 4 < (n : ℝ) + 1) : pyRound4 x = ((n : ℝ) + 1) / 10 ^ 4 := by
  unfold pyRound4
  rw [roundHalfEven_of_upper_half (x * 10 ^ 4) n h1 h2]
  push_cast
  ring

lemma pyRound4_of_mul_intCast (x : ℝ) (n : ℤ) (h : x * 10 ^ 4 = (n : ℝ)) :
    pyRound4 x = (n : ℝ) / 10 ^ 4 := by
  unfold pyRound4
  rw [h, roundHalfEven_intCast]

/-! Helper lemmas for bounding real powers with rational exponents by rational
numbers: a real power with exponent p/q is compared through q-th powers. -/

lemma rpow_nat_div_pow {x : ℝ} (hx : 0 < x) (p q : ℕ) (hq : ((q : ℕ) : ℝ) ≠ 0) :
    (x ^ (((p : ℕ) : ℝ) / ((q : ℕ) : ℝ))) ^ q = x ^ p := by
  rw [← Real.rpow_natCast (x ^ (((p : ℕ) : ℝ) / ((q : ℕ) : ℝ))) q, ← Real.rpow_mul hx.le,
    div_mul_cancel₀ _ hq, Real.rpow_natCast]

lemma lt_rpow_nat_div {x a : ℝ} (p q : ℕ) (hx : 0 < x) (_ha : 0 ≤ a)
    (hq : ((q : ℕ) : ℝ) ≠ 0) (h : a ^ q < x ^ p) :
    a < x ^ (((p : ℕ) : ℝ) / ((q : ℕ) : ℝ)) := by
  have hpos : 0 < x ^ (((p : ℕ) : ℝ) / ((q : ℕ) : ℝ)) := Real.rpow_pos_of_pos hx _
  refine lt_of_pow_lt_pow_left₀ q hpos.le ?_
  rw [rpow_nat_div_pow hx p q hq]
  exact h

lemma rpow_nat_div_lt {x b : ℝ} (p q : ℕ) (hx : 0 < x) (hb : 0 ≤ b)
    (hq : ((q : ℕ) : ℝ) ≠ 0) (h : x ^ p < b ^ q) :
    x ^ (((p : ℕ) : ℝ) / ((q : ℕ) : ℝ)) < b := by
  refine lt_of_pow_lt_pow_left₀ q hb ?_
  rw [rpow_nat_div_pow hx p q hq]
  exact h

/-! Concrete numeric bounds on the real powers appearing at fck = 30 and
fck = 123. -/

lemma exponent_03 : (0.3 : ℝ) = ((3 : ℕ) : ℝ) / ((10 : ℕ) : ℝ) := by norm_num

lemma exponent_031 : (0.31 : ℝ) = ((31 : ℕ) : ℝ) / ((100 : ℕ) : ℝ) := by norm_num

lemma rpow_38_lb : (1.4925 : ℝ) < (3.8 : ℝ) ^ (0.3 : ℝ) := by
  rw [exponent_03]
  refine lt_rpow_nat_div 3 10 (by norm_num) (by norm_num) (by norm_num) ?_
  norm_num

lemma rpow_38_ub : (3.8 : ℝ) ^ (0.3 : ℝ) < 1.4929 := by
  rw [exponent_03]
  refine rpow_nat_div_lt 3 10 (by norm_num) (by norm_num) (by norm_num) ?_
  norm_num

lemma rpow_38_031_lb : (43 / 14 : ℝ) < (38 : ℝ) ^ (0.31 : ℝ) := by
  rw [exponent_031]
  refine lt_rpow_nat_div 31 100 (by norm_num) (by norm_num) (by norm_num) ?_
  norm_num

lemma rpow_38_031_ub : (38 : ℝ) ^ (0.31 : ℝ) < 31 / 10 := by
  rw [exponent_031]
  refine rpow_nat_div_lt 31 100 (by norm_num) (by norm_num) (by norm_num) ?_
  norm_num

lemma rpow_131_031_lb : (4 : ℝ) < (131 : ℝ) ^ (0.31 : ℝ) := by
  rw [exponent_031]
  refine lt_rpow_nat_div 31 100 (by norm_num) (by norm_num) (by norm_num) ?_
  norm_num

lemma rpow_131_03_lb : (10480 / 4851 : ℝ) < (13.1 : ℝ) ^ (0.3 : ℝ) := by
  rw [exponent_03]
  refine lt_rpow_nat_div 3 10 (by norm_num) (by norm_num) (by norm_num) ?_
  norm_num

lemma rpow_131_03_ub : (13.1 : ℝ) ^ (0.3 : ℝ) < 16375 / 7546 := by
  rw [exponent_03]
  refine rpow_nat_div_lt 3 10 (by norm_num) (by norm_num) (by norm_num) ?_
  norm_num

/-! Lemmas about the strain vector. -/

lemma strain_values_length (fck : ℝ) :
    (strain_values fck).length = (⌈(eps_cu1 fck + 0.0001) / 0.0001⌉).toNat := by
  simp [strain_values, arange]

lemma strain_values_getElem? (fck : ℝ) (i : ℕ) (h : i < (strain_values fck).length) :
    (strain_values fck)[i]? = some ((i : ℝ) * 0.0001) := by
  rw [strain_values_length] at h
  unfold strain_values arange
  rw [List.getElem?_map, List.getElem?_range (by simpa using h)]
  simp

lemma eps_cu1_of_lt (fck : ℝ) (h : fck < 50) : eps_cu1 fck = 0.0035 := if_pos h

lemma eps_cu1_of_ge (fck : ℝ) (h : ¬fck < 50) :
    eps_cu1 fck = (2.8 + 27 * ((98 - f_cm fck) / 100) ^ 4) * 0.001 := if_neg h

lemma eps_cu1_ge (fck : ℝ) : 0.0028 ≤ eps_cu1 fck := by
  unfold eps_cu1
  split_ifs with h
  · norm_num
  · have h4 : 0 ≤ ((98 - f_cm fck) / 100) ^ 4 := by positivity
    nlinarith

lemma strain_values_length_pos (fck : ℝ) : 0 < (strain_values fck).length := by
  rw [strain_values_length]
  have h1 : (29 : ℝ) ≤ (eps_cu1 fck + 0.0001) / 0.0001 := by
    rw [le_div_iff (by norm_num : (0 : ℝ) < 0.0001)]
    have := eps_cu1_ge fck
    linarith
  have h2 : ((29 : ℤ) : ℝ) ≤ (⌈(eps_cu1 fck + 0.0001) / 0.0001⌉ : ℝ) := by
    push_cast
    exact h1.trans (Int.le_ceil _)
  have h3 : (29 : ℤ) ≤ ⌈(eps_cu1 fck + 0.0001) / 0.0001⌉ := by exact_mod_cast h2
  omega

lemma strain_values_last (fck : ℝ) :
    ∃ x, (strain_values fck).getLast? = some x ∧ eps_cu1 fck ≤ x ∧ x < eps_cu1 fck + 0.0001 := by
  have hpos := strain_values_length_pos fck
  set N := ⌈(eps_cu1 fck + 0.0001) / 0.0001⌉ with hN
  have hlen : (strain_values fck).length = N.toNat := strain_values_length fck
  have hNpos : 0 < N := by
    rw [hlen] at hpos; omega
  have hidx : N.toNat - 1 < (strain_values fck).length := by omega
  have hget := strain_values_getElem? fck (N.toNat - 1) hidx
  refine ⟨((N.toNat - 1 : ℕ) : ℝ) * 0.0001, ?_, ?_, ?_⟩
  · rw [List.getLast?_eq_getElem?, hlen]
    exact hget
  · have hcast : ((N.toNat - 1 : ℕ) : ℝ) = (N : ℝ) - 1 := by
      have : ((N.toNat - 1 : ℕ) : ℤ) = N - 1 := by omega
      exact_mod_cast this
    rw [hcast]
    have hceil : (eps_cu1 fck + 0.0001) / 0.0001 ≤ (N : ℝ) := Int.le_ceil _
    have hmul : (eps_cu1 fck + 0.0001) / 0.0001 * 0.0001 = eps_cu1 fck + 0.0001 :=
      div_mul_cancel₀ _ (by norm_num)
    nlinarith
  · have hcast : ((N.toNat - 1 : ℕ) : ℝ) = (N : ℝ) - 1 := by
      have : ((N.toNat - 1 : ℕ) : ℤ) = N - 1 := by omega
      exact_mod_cast this
    rw [hcast]
    have hceil : (N : ℝ) < (eps_cu1 fck + 0.0001) / 0.0001 + 1 := Int.ceil_lt_add_one _
    have hmul : (eps_cu1 fck + 0.0001) / 0.0001 * 0.0001 = eps_cu1 fck + 0.0001 :=
      div_mul_cancel₀ _ (by norm_num)
    nlinarith

lemma strain_values_mem_lt (fck : ℝ) (x : ℝ) (hx : x ∈ strain_values fck) :
    x < eps_cu1 fck + 0.0001 := by
  unfold strain_values arange at hx
  rcases List.mem_map.mp hx with ⟨i, hi, rfl⟩
  rw [List.mem_range] at hi
  have h1 : ((i : ℤ)) < ⌈(eps_cu1 fck + 0.0001 - 0) / 0.0001⌉ := by omega
  have h2 : ((i : ℝ)) + 1 ≤ ((⌈(eps_cu1 fck + 0.0001 - 0) / 0.0001⌉ : ℤ) : ℝ) := by
    exact_mod_cast h1
  have h3 : ((⌈(eps_cu1 fck + 0.0001 - 0) / 0.0001⌉ : ℤ) : ℝ) <
      (eps_cu1 fck + 0.0001 - 0) / 0.0001 + 1 := Int.ceil_lt_add_one _
  have hmul : (eps_cu1 fck + 0.0001 - 0) / 0.0001 * 0.0001 = eps_cu1 fck + 0.0001 - 0 :=
    div_mul_cancel₀ _ (by norm_num)
  nlinarith

/-! Lemmas about the normalization pass (Step 14). -/

lemma cummaxAux_length (l : List ℝ) : ∀ acc, (cummaxAux acc l).length = l.length := by
  induction l with
  | nil => intro acc; rfl
  | cons x xs ih => intro acc; simp [cummaxAux, ih]

lemma maximum_accumulate_length (l : List ℝ) :
    (maximum_accumulate l).length = l.length := by
  cases l with
  | nil => rfl
  | cons x xs => simp [maximum_accumulate, cummaxAux_length]

lemma ensure_length (l : List ℝ) :
    (ensure_non_negative_and_monotonic l).length = l.length := by
  simp [ensure_non_negative_and_monotonic, maximum_accumulate_length]

lemma cummaxAux_chain (l : List ℝ) : ∀ acc, List.Chain' (· ≤ ·) (acc :: cummaxAux acc l) := by
  induction l with
  | nil => intro acc; simp [cummaxAux]
  | cons x xs ih =>
      intro acc
      rw [cummaxAux]
      exact List.chain'_cons.mpr ⟨le_max_left _ _, ih (max acc x)⟩

lemma mem_cummaxAux_ge (l : List ℝ) : ∀ acc y, y ∈ cummaxAux acc l → acc ≤ y := by
  induction l with
  | nil => intro acc y h; simp [cummaxAux] at h
  | cons x xs ih =>
      intro acc y h
      rw [cummaxAux] at h
      rcases List.mem_cons.mp h with h1 | h2
      · rw [h1]; exact le_max_left _ _
      · exact le_trans (le_max_left _ _) (ih (max acc x) y h2)

lemma maximum_accumulate_chain (l : List ℝ) :
    List.Chain' (· ≤ ·) (maximum_accumulate l) := by
  cases l with
  | nil => simp [maximum_accumulate]
  | cons x xs => exact cummaxAux_chain xs x

lemma mem_maximum_accumulate_nonneg (l : List ℝ) (hl : ∀ z ∈ l, 0 ≤ z) :
    ∀ y ∈ maximum_accumulate l, 0 ≤ y := by
  cases l with
  | nil => intro y h; simp [maximum_accumulate] at h
  | cons x xs =>
      intro y h
      rw [maximum_accumulate] at h
      rcases List.mem_cons.mp h with h1 | h2
      · rw [h1]; exact hl x (List.mem_cons_self x xs)
      · exact le_trans (hl x (List.mem_cons_self x xs)) (mem_cummaxAux_ge xs x y h2)

lemma ensure_nonneg (l : List ℝ) :
    ∀ y ∈ ensure_non_negative_and_monotonic l, 0 ≤ y := by
  apply mem_maximum_accumulate_nonneg
  intro z hz
  rcases List.mem_map.mp hz with ⟨w, _, hw⟩
  rw [← hw]
  exact le_max_right _ _

lemma ensure_chain (l : List ℝ) :
    List.Chain' (· ≤ ·) (ensure_non_negative_and_monotonic l) :=
  maximum_accumulate_chain _

lemma chain'_getElem?_mono (l : List ℝ) (h : List.Chain' (· ≤ ·) l) (i : ℕ) (a b : ℝ)
    (ha : l[i]? = some a) (hb : l[i + 1]? = some b) : a ≤ b := by
  rcases List.getElem?_eq_some.mp ha with ⟨h1, e1⟩
  rcases List.getElem?_eq_some.mp hb with ⟨h2, e2⟩
  have hlt : i < l.length - 1 := by omega
  have hc := List.chain'_iff_get.mp h i hlt
  rw [List.get_eq_getElem, List.get_eq_getElem] at hc
  rw [← e1, ← e2]
  exact hc

/-! Lemmas about findFirstGe (the np.argmax model) and zip indexing. -/

lemma zip_getElem?_of_eq {α β : Type} :
    ∀ (l1 : List α) (l2 : List β) (i : ℕ) (a : α) (b : β),
      l1[i]? = some a → l2[i]? = some b → (l1.zip l2)[i]? = some (a, b) := by
  intro l1
  induction l1 with
  | nil => intro l2 i a b h1 _; simp at h1
  | cons x xs ih =>
      intro l2 i a b h1 h2
      cases l2 with
      | nil => simp at h2
      | cons y ys =>
          cases i with
          | zero =>
              simp only [List.getElem?_cons_zero, Option.some.injEq] at h1 h2
              simp [List.zip_cons_cons, h1, h2]
          | succ n =>
              simp only [List.getElem?_cons_succ] at h1 h2
              simp only [List.zip_cons_cons, List.getElem?_cons_succ]
              exact ih ys n a b h1 h2

lemma findFirstGe_none_spec (c : ℝ) :
    ∀ l : List ℝ, findFirstGe c l = none → ∀ x ∈ l, x < c := by
  intro l
  induction l with
  | nil => intro _ x hx; simp at hx
  | cons y ys ih =>
      intro h x hx
      rw [findFirstGe] at h
      split_ifs at h with hy
      rcases List.mem_cons.mp hx with h1 | hmem
      · rw [h1]; exact not_le.mp hy
      · exact ih (by simpa using h) x hmem

lemma findFirstGe_some_spec (c : ℝ) :
    ∀ (l : List ℝ) (i : ℕ), findFirstGe c l = some i →
      (∃ x, l[i]? = some x ∧ c ≤ x) ∧ ∀ j, j < i → ∀ x, l[j]? = some x → x < c := by
  intro l
  induction l with
  | nil => intro i h; simp [findFirstGe] at h
  | cons y ys ih =>
      intro i h
      rw [findFirstGe] at h
      split_ifs at h with hy
      · have h0 : i = 0 := (Option.some.inj h).symm
        subst h0
        exact ⟨⟨y, by simp, hy⟩, fun j hj => by omega⟩
      · rcases Option.map_eq_some'.mp h with ⟨i0, h0, hi⟩
        subst hi
        obtain ⟨⟨x, hx, hcx⟩, hprev⟩ := ih i0 h0
        refine ⟨⟨x, by simpa [List.getElem?_cons_succ] using hx, hcx⟩, ?_⟩
        intro j hj z hz
        cases j with
        | zero =>
            simp only [List.getElem?_cons_zero, Option.some.injEq] at hz
            rw [← hz]
            exact not_le.mp hy
        | succ j0 =>
            rw [List.getElem?_cons_succ] at hz
            exact hprev j0 (by omega) z hz

lemma findFirstGe_isSome (c : ℝ) :
    ∀ (l : List ℝ) (x : ℝ), x ∈ l → c ≤ x → ∃ i, findFirstGe c l = some i := by
  intro l
  induction l with
  | nil => intro x hx; simp at hx
  | cons y ys ih =>
      intro x hx hcx
      rw [findFirstGe]
      by_cases hy : y ≥ c
      · rw [if_pos hy]; exact ⟨0, rfl⟩
      · rcases List.mem_cons.mp hx with rfl | hmem
        · exact absurd hcx hy
        · obtain ⟨i0, h0⟩ := ih x hmem hcx
          rw [if_neg hy, h0]
          exact ⟨i0 + 1, rfl⟩

/-! Scalar bounds and concrete evaluations at fck = 30 and fck = 123. -/

lemma f_cm_30 : f_cm 30 = 38 := by norm_num [f_cm]

lemma f_cm_123 : f_cm 123 = 131 := by norm_num [f_cm]

lemma eps_c1_capped_le (fck : ℝ) : eps_c1_capped fck ≤ 0.0028 := by
  unfold eps_c1_capped
  split_ifs with h
  · norm_num
  · exact le_of_not_lt h

lemma eps_c1_le (fck : ℝ) : eps_c1 fck ≤ 0.0028 := by
  unfold eps_c1
  have h := eps_c1_capped_le fck
  have h2 := pyRound4_le (eps_c1_capped fck) 28 (by push_cast; nlinarith)
  calc pyRound4 (eps_c1_capped fck) ≤ ((28 : ℤ) : ℝ) / 10 ^ 4 := h2
    _ = 0.0028 := by norm_num

lemma eps_c1_uncapped_30_lb : 0.00215 < eps_c1_uncapped 30 := by
  unfold eps_c1_uncapped
  rw [f_cm_30]
  nlinarith [rpow_38_031_lb]

lemma eps_c1_uncapped_30_ub : eps_c1_uncapped 30 < 0.00217 := by
  unfold eps_c1_uncapped
  rw [f_cm_30]
  nlinarith [rpow_38_031_ub]

lemma eps_c1_capped_30 : eps_c1_capped 30 = eps_c1_uncapped 30 := by
  unfold eps_c1_capped
  rw [if_neg (not_lt.mpr (le_of_lt (lt_trans eps_c1_uncapped_30_ub (by norm_num))))]

lemma eps_c1_30 : eps_c1 30 = 0.0022 := by
  have h1 : ((21 : ℤ) : ℝ) + 1 / 2 < eps_c1_uncapped 30 * 10 ^ 4 := by
    push_cast
    nlinarith [eps_c1_uncapped_30_lb]
  have h2 : eps_c1_uncapped 30 * 10 ^ 4 < ((21 : ℤ) : ℝ) + 1 := by
    push_cast
    nlinarith [eps_c1_uncapped_30_ub]
  unfold eps_c1
  rw [eps_c1_capped_30, pyRound4_eq_upper (eps_c1_uncapped 30) 21 h1 h2]
  push_cast
  norm_num

lemma eps_c1_uncapped_123_gt : eps_c1_uncapped 123 > 0.0028 := by
  unfold eps_c1_uncapped
  rw [f_cm_123]
  nlinarith [rpow_131_031_lb]

lemma eps_c1_123 : eps_c1 123 = 0.0028 := by
  have hcap : eps_c1_capped 123 = 0.0028 := by
    unfold eps_c1_capped
    rw [if_pos eps_c1_uncapped_123_gt]
  unfold eps_c1
  rw [hcap, pyRound4_of_mul_intCast 0.0028 28 (by push_cast; norm_num)]
  push_cast
  norm_num

lemma eps_cu1_30 : eps_cu1 30 = 0.0035 := eps_cu1_of_lt 30 (by norm_num)

lemma eps_cu1_123 : eps_cu1 123 = 0.00312019867 := by
  rw [eps_cu1_of_ge 123 (by norm_num), f_cm_123]
  norm_num

lemma strain_values_length_30 : (strain_values 30).length = 36 := by
  rw [strain_values_length, eps_cu1_30]
  have h : ((0.0035 : ℝ) + 0.0001) / 0.0001 = ((36 : ℤ) : ℝ) := by norm_num
  rw [h, Int.ceil_intCast]
  rfl

lemma strain_values_length_123 : (strain_values 123).length = 33 := by
  rw [strain_values_length, eps_cu1_123]
  have h : ⌈((0.00312019867 : ℝ) + 0.0001) / 0.0001⌉ = 33 := by
    rw [Int.ceil_eq_iff]
    constructor
    · push_cast; norm_num
    · push_cast; norm_num
  rw [h]
  rfl

lemma E_cm_MPa_30 : E_cm_MPa 30 = 22 * (3.8 : ℝ) ^ (0.3 : ℝ) * 1000 := by
  unfold E_cm_MPa E_cm_GPa
  rw [show f_cm 30 / 10 = (3.8 : ℝ) by rw [f_cm_30]; norm_num]

lemma E_cm_MPa_123 : E_cm_MPa 123 = 22 * (13.1 : ℝ) ^ (0.3 : ℝ) * 1000 := by
  unfold E_cm_MPa E_cm_GPa
  rw [show f_cm 123 / 10 = (13.1 : ℝ) by rw [f_cm_123]; norm_num]

lemma k_30_gt : (1.99 : ℝ) < k 30 := by
  unfold k
  rw [E_cm_MPa_30, eps_c1_30, f_cm_30, abs_of_pos (by norm_num : (0 : ℝ) < 0.0022)]
  nlinarith [rpow_38_lb]

lemma k_123_lb : (16 / 15 : ℝ) < k 123 := by
  unfold k
  rw [E_cm_MPa_123, eps_c1_123, f_cm_123, abs_of_pos (by norm_num : (0 : ℝ) < 0.0028)]
  nlinarith [rpow_131_03_lb]

lemma k_123_ub : k 123 < (15 / 14 : ℝ) := by
  unfold k
  rw [E_cm_MPa_123, eps_c1_123, f_cm_123, abs_of_pos (by norm_num : (0 : ℝ) < 0.0028)]
  nlinarith [rpow_131_03_ub]

lemma mem_of_getElem?_eq {α : Type} (l : List α) (i : ℕ) (a : α) (h : l[i]? = some a) :
    a ∈ l := by
  rcases List.getElem?_eq_some.mp h with ⟨hl, he⟩
  rw [← he]
  exact List.getElem_mem hl

lemma mem_of_getLast?_eq (l : List ℝ) (x : ℝ) (h : l.getLast? = some x) : x ∈ l := by
  have hx : x ∈ l.getLast? := by rw [Option.mem_def]; exact h
  rcases List.mem_getLast?_eq_getLast hx with ⟨hne, he⟩
  rw [he]
  exact List.getLast_mem hne

lemma map_at_getElem? (fck : ℝ) (f : ℝ → ℝ) (i : ℕ) (s : ℝ)
    (hs : (strain_values fck)[i]? = some s) :
    ((strain_values fck).map f)[i]? = some (f s) := by
  rw [List.getElem?_map, hs]
  rfl

lemma strain_values_30_get0 : (strain_values 30)[0]? = some 0 := by
  have h := strain_values_getElem? 30 0 (strain_values_length_pos 30)
  rw [h]
  norm_num

/-! The claims. -/

/-- Claim C1: at every index i of the generated strain vector, with
eta = strain/eps_c1, the raw stress is f_cm*(k*eta - eta^2)/(1 + (k-2)*eta),
the same formula applied at all indices (including strain at or below
eps_c1); the elastic strain is stress/E_cm_MPa; and the raw inelastic
strain, damage and plastic strain equal strain - elastic_strain,
1 - stress/f_cm, and inelastic - (damage/(1-damage))*(stress/E_cm_MPa)
respectively where strain > eps_c1, and 0 otherwise. -/
theorem claim_C1 (fck : ℝ) (hfck : 0 < fck) (i : ℕ) (s : ℝ)
    (hs : (strain_values fck)[i]? = some s) :
    ∃ σ : ℝ,
      (stress_values fck)[i]? = some σ ∧
      σ = f_cm fck *
        ((k fck * (s / eps_c1 fck) - (s / eps_c1 fck) ^ 2) /
          (1 + (k fck - 2) * (s / eps_c1 fck))) ∧
      (elastic_strain_values fck)[i]? = some (σ / E_cm_MPa fck) ∧
      (inelastic_strain_values_raw fck)[i]? =
        some (if s > eps_c1 fck then s - σ / E_cm_MPa fck else 0) ∧
      (damage_values_raw fck)[i]? =
        some (if s > eps_c1 fck then 1 - σ / f_cm fck else 0) ∧
      (plastic_strain_values_raw fck)[i]? =
        some (if s > eps_c1 fck then
          s - σ / E_cm_MPa fck -
            (1 - σ / f_cm fck) / (1 - (1 - σ / f_cm fck)) * (σ / E_cm_MPa fck)
          else 0) := by
  refine ⟨stress_at fck s, ?_, ?_, ?_, ?_, ?_, ?_⟩
  · exact map_at_getElem? fck (stress_at fck) i s hs
  · rfl
  · exact map_at_getElem? fck (elastic_strain_at fck) i s hs
  · exact map_at_getElem? fck (inelastic_strain_raw_at fck) i s hs
  · exact map_at_getElem? fck (damage_raw_at fck) i s hs
  · have h := map_at_getElem? fck (plastic_strain_raw_at fck) i s hs
    have he : (plastic_strain_values_raw fck)[i]? = some (plastic_strain_raw_at fck s) := h
    rw [he]
    congr 1
    unfold plastic_strain_raw_at inelastic_strain_raw_at damage_raw_at elastic_strain_at
    split_ifs with hmask
    · rfl
    · rfl

/-- Witness for claim C1: fck = 30, index 0, strain 0. -/
theorem claim_C1_witness :
    (0 : ℝ) < 30 ∧ (strain_values 30)[0]? = some 0 ∧
    ∃ σ : ℝ,
      (stress_values 30)[0]? = some σ ∧
      σ = f_cm 30 *
        ((k 30 * ((0 : ℝ) / eps_c1 30) - ((0 : ℝ) / eps_c1 30) ^ 2) /
          (1 + (k 30 - 2) * ((0 : ℝ) / eps_c1 30))) ∧
      (elastic_strain_values 30)[0]? = some (σ / E_cm_MPa 30) ∧
      (inelastic_strain_values_raw 30)[0]? =
        some (if (0 : ℝ) > eps_c1 30 then (0 : ℝ) - σ / E_cm_MPa 30 else 0) ∧
      (damage_values_raw 30)[0]? =
        some (if (0 : ℝ) > eps_c1 30 then 1 - σ / f_cm 30 else 0) ∧
      (plastic_strain_values_raw 30)[0]? =
        some (if (0 : ℝ) > eps_c1 30 then
          (0 : ℝ) - σ / E_cm_MPa 30 -
            (1 - σ / f_cm 30) / (1 - (1 - σ / f_cm 30)) * (σ / E_cm_MPa 30)
          else 0) :=
  ⟨by norm_num, strain_values_30_get0,
    claim_C1 30 (by norm_num) 0 0 strain_values_30_get0⟩

/-- Claim C2: after the Step 14 normalization (clamp to nonnegative, then a
left-to-right running maximum), each of inelastic_strain_values,
plastic_strain_values and damage_values is non-negative at every index and
non-decreasing along the whole sequence. -/
theorem claim_C2 (fck : ℝ) (hfck : 0 < fck) :
    ((∀ x ∈ inelastic_strain_values fck, 0 ≤ x) ∧
      ∀ i a b, (inelastic_strain_values fck)[i]? = some a →
        (inelastic_strain_values fck)[i + 1]? = some b → a ≤ b) ∧
    ((∀ x ∈ plastic_strain_values fck, 0 ≤ x) ∧
      ∀ i a b, (plastic_strain_values fck)[i]? = some a →
        (plastic_strain_values fck)[i + 1]? = some b → a ≤ b) ∧
    ((∀ x ∈ damage_values fck, 0 ≤ x) ∧
      ∀ i a b, (damage_values fck)[i]? = some a →
        (damage_values fck)[i + 1]? = some b → a ≤ b) := by
  refine ⟨⟨ensure_nonneg _, ?_⟩, ⟨ensure_nonneg _, ?_⟩, ⟨ensure_nonneg _, ?_⟩⟩ <;>
    exact fun i a b ha hb => chain'_getElem?_mono _ (ensure_chain _) i a b ha hb

/-- Witness for claim C2 at fck = 30. -/
theorem claim_C2_witness :
    (0 : ℝ) < 30 ∧
    (((∀ x ∈ inelastic_strain_values 30, 0 ≤ x) ∧
      ∀ i a b, (inelastic_strain_values 30)[i]? = some a →
        (inelastic_strain_values 30)[i + 1]? = some b → a ≤ b) ∧
    ((∀ x ∈ plastic_strain_values 30, 0 ≤ x) ∧
      ∀ i a b, (plastic_strain_values 30)[i]? = some a →
        (plastic_strain_values 30)[i + 1]? = some b → a ≤ b) ∧
    ((∀ x ∈ damage_values 30, 0 ≤ x) ∧
      ∀ i a b, (damage_values 30)[i]? = some a →
        (damage_values 30)[i + 1]? = some b → a ≤ b)) :=
  ⟨by norm_num, claim_C2 30 (by norm_num)⟩

/-- Claim C3: the strain vector starts at 0, is strictly increasing with the
fixed step 0.0001, its last element is at least eps_cu1, and every element
stays below the half-open generation bound eps_cu1 + 0.0001. -/
theorem claim_C3 (fck : ℝ) (hfck : 0 < fck) :
    (strain_values fck).head? = some 0 ∧
    (∀ (i : ℕ) (a b : ℝ), (strain_values fck)[i]? = some a →
      (strain_values fck)[i + 1]? = some b → b = a + 0.0001 ∧ a < b) ∧
    (∃ x, (strain_values fck).getLast? = some x ∧ eps_cu1 fck ≤ x) ∧
    ∀ x ∈ strain_values fck, x < eps_cu1 fck + 0.0001 := by
  refine ⟨?_, ?_, ?_, strain_values_mem_lt fck⟩
  · rw [List.head?_eq_getElem?]
    have h := strain_values_getElem? fck 0 (strain_values_length_pos fck)
    rw [h]
    norm_num
  · intro i a b ha hb
    have hlb : i + 1 < (strain_values fck).length := (List.getElem?_eq_some.mp hb).1
    have hla : i < (strain_values fck).length := by omega
    rw [strain_values_getElem? fck i hla] at ha
    rw [strain_values_getElem? fck (i + 1) hlb] at hb
    have ha2 : a = (i : ℝ) * 0.0001 := (Option.some.inj ha).symm
    have hb2 : b = ((i + 1 : ℕ) : ℝ) * 0.0001 := (Option.some.inj hb).symm
    constructor
    · rw [ha2, hb2]; push_cast; ring
    · rw [ha2, hb2]; push_cast; nlinarith
  · obtain ⟨x, hx, hge, _⟩ := strain_values_last fck
    exact ⟨x, hx, hge⟩

/-- Witness for claim C3 at fck = 30. -/
theorem claim_C3_witness :
    (0 : ℝ) < 30 ∧
    ((strain_values 30).head? = some 0 ∧
    (∀ (i : ℕ) (a b : ℝ), (strain_values 30)[i]? = some a →
      (strain_values 30)[i + 1]? = some b → b = a + 0.0001 ∧ a < b) ∧
    (∃ x, (strain_values 30).getLast? = some x ∧ eps_cu1 30 ≤ x) ∧
    ∀ x ∈ strain_values 30, x < eps_cu1 30 + 0.0001) :=
  ⟨by norm_num, claim_C3 30 (by norm_num)⟩

/-- Claim C4: eps_c1 equals min(0.7*f_cm^0.31*1e-3, 0.0028) rounded to four
decimal places, the 0.0028 cap being applied before the rounding, and the
resulting eps_c1 never exceeds 0.0028. -/
theorem claim_C4 (fck : ℝ) (hfck : 0 < fck) :
    eps_c1 fck = pyRound4 (min (eps_c1_uncapped fck) 0.0028) ∧ eps_c1 fck ≤ 0.0028 := by
  refine ⟨?_, eps_c1_le fck⟩
  unfold eps_c1 eps_c1_capped
  congr 1
  rw [min_def]
  split_ifs with h1 h2 h2 <;> first | rfl | linarith

/-- Witness for claim C4 at fck = 30. -/
theorem claim_C4_witness :
    (0 : ℝ) < 30 ∧
    (eps_c1 30 = pyRound4 (min (eps_c1_uncapped 30) 0.0028) ∧ eps_c1 30 ≤ 0.0028) :=
  ⟨by norm_num, claim_C4 30 (by norm_num)⟩

/-- Claim C5: eps_cu1 is 0.0035 when fck < 50 and otherwise
(2.8 + 27*((98 - f_cm)/100)^4)*1e-3 with f_cm = fck + 8; in particular the
two branches at fck = 49 and fck = 50. -/
theorem claim_C5 (fck : ℝ) (hfck : 0 < fck) :
    (fck < 50 → eps_cu1 fck = 0.0035) ∧
    (¬fck < 50 → eps_cu1 fck = (2.8 + 27 * ((98 - (fck + 8)) / 100) ^ 4) * 0.001) ∧
    eps_cu1 49 = 0.0035 ∧ eps_cu1 50 = 0.0034912 := by
  refine ⟨eps_cu1_of_lt fck, ?_, eps_cu1_of_lt 49 (by norm_num), ?_⟩
  · intro h
    rw [eps_cu1_of_ge fck h]
    simp [f_cm]
  · rw [eps_cu1_of_ge 50 (by norm_num)]
    norm_num [f_cm]

/-- Witness for claim C5 at fck = 30. -/
theorem claim_C5_witness :
    (0 : ℝ) < 30 ∧
    ((30 : ℝ) < 50 → eps_cu1 30 = 0.0035) ∧
    (¬(30 : ℝ) < 50 → eps_cu1 30 = (2.8 + 27 * ((98 - ((30 : ℝ) + 8)) / 100) ^ 4) * 0.001) ∧
    eps_cu1 49 = 0.0035 ∧ eps_cu1 50 = 0.0034912 :=
  ⟨by norm_num, claim_C5 30 (by norm_num)⟩

/-- Claim C6: the derived ultimate strain dominates the peak strain:
eps_cu1 is at least eps_c1, and in particular at least the 0.0028 cap. -/
theorem claim_C6 (fck : ℝ) (hfck : 0 < fck) :
    eps_c1 fck ≤ eps_cu1 fck ∧ 0.0028 ≤ eps_cu1 fck :=
  ⟨(eps_c1_le fck).trans (eps_cu1_ge fck), eps_cu1_ge fck⟩

/-- Witness for claim C6 at fck = 30. -/
theorem claim_C6_witness :
    (0 : ℝ) < 30 ∧ (eps_c1 30 ≤ eps_cu1 30 ∧ 0.0028 ≤ eps_cu1 30) :=
  ⟨by norm_num, claim_C6 30 (by norm_num)⟩

/-- Claim C7: start_index is the first index whose strain is at least eps_c1
(index 0 when no index satisfies the predicate), both exported tables have
exactly length(strain_values) - start_index rows, and each row pairs the raw
stress (respectively the normalized damage) with the normalized inelastic
strain at the same index, with no interpolation. -/
theorem claim_C7 (fck : ℝ) (hfck : 0 < fck) :
    (((∃ x, (strain_values fck)[start_index fck]? = some x ∧ eps_c1 fck ≤ x) ∧
        ∀ j, j < start_index fck →
          ∀ x, (strain_values fck)[j]? = some x → x < eps_c1 fck) ∨
      (start_index fck = 0 ∧ ∀ x ∈ strain_values fck, x < eps_c1 fck)) ∧
    (export_data fck).length = (strain_values fck).length - start_index fck ∧
    (export_damage_data fck).length = (strain_values fck).length - start_index fck ∧
    (∀ (i : ℕ) (σ ι : ℝ), (stress_values fck)[start_index fck + i]? = some σ →
      (inelastic_strain_values fck)[start_index fck + i]? = some ι →
      (export_data fck)[i]? = some (σ, ι)) ∧
    (∀ (i : ℕ) (d ι : ℝ), (damage_values fck)[start_index fck + i]? = some d →
      (inelastic_strain_values fck)[start_index fck + i]? = some ι →
      (export_damage_data fck)[i]? = some (d, ι)) := by
  have hsl : (stress_values fck).length = (strain_values fck).length := by
    simp [stress_values]
  have hil : (inelastic_strain_values fck).length = (strain_values fck).length := by
    unfold inelastic_strain_values
    rw [ensure_length]
    simp [inelastic_strain_values_raw]
  have hdl : (damage_values fck).length = (strain_values fck).length := by
    unfold damage_values
    rw [ensure_length]
    simp [damage_values_raw]
  refine ⟨?_, ?_, ?_, ?_, ?_⟩
  · obtain ⟨x, hx, hge, _⟩ := strain_values_last fck
    have hmem : x ∈ strain_values fck := mem_of_getLast?_eq _ x hx
    have hle : eps_c1 fck ≤ x := ((eps_c1_le fck).trans (eps_cu1_ge fck)).trans hge
    obtain ⟨i0, hfind⟩ := findFirstGe_isSome (eps_c1 fck) (strain_values fck) x hmem hle
    have hsi : start_index fck = i0 := by unfold start_index; rw [hfind]; rfl
    obtain ⟨hex, hprev⟩ := findFirstGe_some_spec (eps_c1 fck) (strain_values fck) i0 hfind
    left
    rw [hsi]
    exact ⟨hex, hprev⟩
  · unfold export_data
    rw [List.length_zip, List.length_drop, List.length_drop, hsl, hil, min_self]
  · unfold export_damage_data
    rw [List.length_zip, List.length_drop, List.length_drop, hdl, hil, min_self]
  · intro i σ ι h1 h2
    unfold export_data
    apply zip_getElem?_of_eq
    · rw [List.getElem?_drop]; exact h1
    · rw [List.getElem?_drop]; exact h2
  · intro i d ι h1 h2
    unfold export_damage_data
    apply zip_getElem?_of_eq
    · rw [List.getElem?_drop]; exact h1
    · rw [List.getElem?_drop]; exact h2

/-- Witness for claim C7 at fck = 30. -/
theorem claim_C7_witness :
    (0 : ℝ) < 30 ∧
    ((((∃ x, (strain_values 30)[start_index 30]? = some x ∧ eps_c1 30 ≤ x) ∧
        ∀ j, j < start_index 30 →
          ∀ x, (strain_values 30)[j]? = some x → x < eps_c1 30) ∨
      (start_index 30 = 0 ∧ ∀ x ∈ strain_values 30, x < eps_c1 30)) ∧
    (export_data 30).length = (strain_values 30).length - start_index 30 ∧
    (export_damage_data 30).length = (strain_values 30).length - start_index 30 ∧
    (∀ (i : ℕ) (σ ι : ℝ), (stress_values 30)[start_index 30 + i]? = some σ →
      (inelastic_strain_values 30)[start_index 30 + i]? = some ι →
      (export_data 30)[i]? = some (σ, ι)) ∧
    (∀ (i : ℕ) (d ι : ℝ), (damage_values 30)[start_index 30 + i]? = some d →
      (inelastic_strain_values 30)[start_index 30 + i]? = some ι →
      (export_damage_data 30)[i]? = some (d, ι))) :=
  ⟨by norm_num, claim_C7 30 (by norm_num)⟩

/-- Counterexample to claim C8: at fck = 30 the computed eps_c1 is 0.0022
(the uncapped value 0.7*38^0.31*1e-3 is about 0.00216, which rounds up to
0.0022), so the claimed value of approximately 0.0021 is refuted. -/
theorem claim_C8_counterexample : eps_c1 30 ≠ 0.0021 := by
  rw [eps_c1_30]
  norm_num

lemma E_cm_GPa_30 : E_cm_GPa 30 = 22 * (3.8 : ℝ) ^ (0.3 : ℝ) := by
  unfold E_cm_GPa
  rw [show f_cm 30 / 10 = (3.8 : ℝ) by rw [f_cm_30]; norm_num]

/-- Amended claim C8: for fck = 30 the pipeline yields f_cm = 38,
E_cm_GPa = 22*3.8^0.3 which is within 0.005 of 32.84, eps_c1 = 0.0022 (the
uncapped value lies strictly between 0.00215 and 0.00217, hence about
0.00216, under the 0.0028 cap), eps_cu1 = 0.0035 (since 30 < 50), and a
strain vector of exactly 36 points. -/
theorem claim_C8_amended :
    f_cm 30 = 38 ∧
    E_cm_GPa 30 = 22 * (3.8 : ℝ) ^ (0.3 : ℝ) ∧
    |E_cm_GPa 30 - 32.84| < 0.005 ∧
    eps_c1 30 = 0.0022 ∧
    (0.00215 < eps_c1_uncapped 30 ∧ eps_c1_uncapped 30 < 0.00217) ∧
    eps_c1_uncapped 30 < 0.0028 ∧
    eps_cu1 30 = 0.0035 ∧
    (strain_values 30).length = 36 := by
  refine ⟨f_cm_30, E_cm_GPa_30, ?_, eps_c1_30,
    ⟨eps_c1_uncapped_30_lb, eps_c1_uncapped_30_ub⟩, ?_, eps_cu1_30,
    strain_values_length_30⟩
  · rw [E_cm_GPa_30, abs_lt]
    constructor
    · nlinarith [rpow_38_lb]
    · nlinarith [rpow_38_ub]
  · linarith [eps_c1_uncapped_30_ub]

/-- Claim C9: determinism of the pipeline: all derived scalars, sequences and
the contents of both exported CSV files are functions of fck alone, so two
runs on the same input agree exactly. -/
theorem claim_C9 (fck1 fck2 : ℝ) (h : fck1 = fck2) :
    pipeline_output fck1 = pipeline_output fck2 ∧
    plastic_compression_behaviour_csv fck1 = plastic_compression_behaviour_csv fck2 ∧
    damage_inelastic_compression_csv fck1 = damage_inelastic_compression_csv fck2 := by
  subst h
  exact ⟨rfl, rfl, rfl⟩

/-- Witness for claim C9 at fck = 30. -/
theorem claim_C9_witness :
    (30 : ℝ) = 30 ∧
    (pipeline_output 30 = pipeline_output 30 ∧
    plastic_compression_behaviour_csv 30 = plastic_compression_behaviour_csv 30 ∧
    damage_inelastic_compression_csv 30 = damage_inelastic_compression_csv 30) :=
  ⟨rfl, claim_C9 30 30 rfl⟩

lemma strain_values_123_get30 : (strain_values 123)[30]? = some (0.0030 : ℝ) := by
  have h := strain_values_getElem? 123 30 (by rw [strain_values_length_123]; omega)
  rw [h]
  norm_num

lemma stress_at_123_neg : stress_at 123 0.0030 < 0 := by
  have hkl := k_123_lb
  have hku := k_123_ub
  unfold stress_at eta_at
  rw [eps_c1_123, f_cm_123]
  rw [show (0.0030 : ℝ) / 0.0028 = 15 / 14 by norm_num]
  have hnum : k 123 * (15 / 14) - (15 / 14 : ℝ) ^ 2 < 0 := by nlinarith
  have hden : (0 : ℝ) < 1 + (k 123 - 2) * (15 / 14) := by nlinarith
  exact mul_neg_of_pos_of_neg (by norm_num) (div_neg_of_neg_of_pos hnum hden)

lemma damage_raw_at_123_ge : 1 ≤ damage_raw_at 123 0.0030 := by
  unfold damage_raw_at
  rw [if_pos (show (0.0030 : ℝ) > eps_c1 123 by rw [eps_c1_123]; norm_num), f_cm_123]
  have h := div_neg_of_neg_of_pos stress_at_123_neg (show (0 : ℝ) < 131 by norm_num)
  linarith

/-- Counterexample to claim C10: at fck = 123 the strain vector contains
0.0030 at index 30, which exceeds eps_c1 = 0.0028, and there the raw damage
1 - stress/f_cm is at least 1 (the stress value is negative), refuting the
claim that the raw damage is below 1 at every masked index for every
positive fck. -/
theorem claim_C10_counterexample :
    ¬(∀ (fck : ℝ), 0 < fck → ∀ (i : ℕ) (s d : ℝ),
        (strain_values fck)[i]? = some s → s > eps_c1 fck →
        (damage_values_raw fck)[i]? = some d → d < 1) := by
  intro hclaim
  have hget : (damage_values_raw 123)[30]? = some (damage_raw_at 123 0.0030) :=
    map_at_getElem? 123 (damage_raw_at 123) 30 0.0030 strain_values_123_get30
  have hmask : (0.0030 : ℝ) > eps_c1 123 := by rw [eps_c1_123]; norm_num
  have h := hclaim 123 (by norm_num) 30 0.0030 (damage_raw_at 123 0.0030)
    strain_values_123_get30 hmask hget
  linarith [damage_raw_at_123_ge]

lemma stress_at_30_pos (s : ℝ) (h1 : eps_c1 30 < s) (h2 : s ≤ 0.0035) :
    0 < stress_at 30 s := by
  have hk := k_30_gt
  rw [eps_c1_30] at h1
  unfold stress_at eta_at
  rw [eps_c1_30, f_cm_30]
  have heta1 : 1 < s / 0.0022 := (one_lt_div (by norm_num)).mpr h1
  have heta2 : s / 0.0022 ≤ 35 / 22 := by
    rw [div_le_div_iff (by norm_num) (by norm_num)]
    linarith
  have hetapos : (0 : ℝ) < s / 0.0022 := by linarith
  have hklt : s / 0.0022 < k 30 := by linarith
  have hnum : 0 < k 30 * (s / 0.0022) - (s / 0.0022) ^ 2 := by
    nlinarith [mul_pos hetapos (sub_pos.mpr hklt)]
  have hden : (0 : ℝ) < 1 + (k 30 - 2) * (s / 0.0022) := by
    rcases le_or_lt (k 30) 2 with hc | hc
    · have hb : (2 - k 30) * (s / 0.0022) ≤ 0.01 * (35 / 22) :=
        mul_le_mul (by linarith) heta2 (by linarith) (by norm_num)
      nlinarith
    · nlinarith [mul_pos (sub_pos.mpr hc) hetapos]
  exact mul_pos (by norm_num) (div_pos hnum hden)

/-- Amended claim C10: the divisor safety is not universal in fck.  For the
example input fck = 30 every index with strain above eps_c1 has raw damage
strictly below 1 (equivalently positive stress), but there exist positive
fck, such as fck = 123, where a masked index carries raw damage of at least
1 (see the counterexample), so the plastic-strain division is unguarded in
general. -/
theorem claim_C10_amended (i : ℕ) (s : ℝ)
    (hs : (strain_values 30)[i]? = some s) (hmask : s > eps_c1 30) (d : ℝ)
    (hd : (damage_values_raw 30)[i]? = some d) : d < 1 := by
  have hd2 : (damage_values_raw 30)[i]? = some (damage_raw_at 30 s) :=
    map_at_getElem? 30 (damage_raw_at 30) i s hs
  rw [hd] at hd2
  have hde : d = damage_raw_at 30 s := Option.some.inj hd2
  have hlen : i < (strain_values 30).length := (List.getElem?_eq_some.mp hs).1
  have hs2 := strain_values_getElem? 30 i hlen
  rw [hs2] at hs
  have hse : s = (i : ℝ) * 0.0001 := (Option.some.inj hs).symm
  have hi36 : i < 36 := by rw [strain_values_length_30] at hlen; exact hlen
  have hsu : s ≤ 0.0035 := by
    rw [hse]
    have hcast : (i : ℝ) ≤ 35 := by exact_mod_cast Nat.lt_succ_iff.mp (by omega)
    nlinarith
  have hpos := stress_at_30_pos s hmask hsu
  rw [hde]
  unfold damage_raw_at
  rw [if_pos hmask, f_cm_30]
  have h := div_pos hpos (show (0 : ℝ) < 38 by norm_num)
  linarith

/-- Witness for the amended claim C10: fck = 30, index 23, strain 0.0023. -/
theorem claim_C10_amended_witness :
    (strain_values 30)[23]? = some (0.0023 : ℝ) ∧ (0.0023 : ℝ) > eps_c1 30 ∧
    (damage_values_raw 30)[23]? = some (damage_raw_at 30 0.0023) ∧
    damage_raw_at 30 0.0023 < 1 := by
  have hget23 : (strain_values 30)[23]? = some (0.0023 : ℝ) := by
    have h := strain_values_getElem? 30 23 (by rw [strain_values_length_30]; omega)
    rw [h]
    norm_num
  have hmask : (0.0023 : ℝ) > eps_c1 30 := by rw [eps_c1_30]; norm_num
  have hget : (damage_values_raw 30)[23]? = some (damage_raw_at 30 0.0023) :=
    map_at_getElem? 30 (damage_raw_at 30) 23 0.0023 hget23
  exact ⟨hget23, hmask, hget,
    claim_C10_amended 23 0.0023 hget23 hmask (damage_raw_at 30 0.0023) hget⟩

end CDP
